import Mathlib

/-
Verification of the fastq-qc pipeline (Go sources: services/ingress-api/main.go,
services/qc-worker/main.go, and the results-api main.go) against its design
specification.  The Go code is shallowly embedded: lines of the input stream are
lists of characters, the Postgres tables are explicit Lean data, float64
arithmetic is modelled by exact rationals (the spec states the ratios exactly,
"within floating-point tolerance"), and the worker's consume loop is modelled as
the ordered list of store/queue effects it performs, applied to a database state.
Timestamps are opaque naturals supplied to the interpreter (now()).  Prometheus
counters, logging and the processing_ms wall-clock field are outside the
embedding; the claims do not mention them.
-/

namespace FastqQC

/-! ## Record Stream Analyzer (qc-worker processFASTQ, scan loop) -/

/-- Character classification from the switch in processFASTQ:
`case 'G', 'g', 'C', 'c': gcCount++`. -/
def isGCChar (c : Char) : Bool :=
  c = 'G' || c = 'g' || c = 'C' || c = 'c'

/-- Character classification from the switch in processFASTQ:
`case 'N', 'n': nCount++`. -/
def isNChar (c : Char) : Bool :=
  c = 'N' || c = 'n'

/-- Go unicode.IsSpace on the Latin-1 range: space, tab, newline, vertical tab,
form feed, carriage return, next line, no-break space.  (unicode.IsSpace also
accepts the higher Unicode White_Space code points; no claim depends on them.) -/
def goIsSpace (c : Char) : Bool :=
  c = ' ' || c = '\t' || c = '\n' || c.toNat = 11 || c.toNat = 12 ||
  c = '\r' || c.toNat = 0x85 || c.toNat = 0xA0

/-- Go strings.TrimSpace: drops leading and trailing whitespace. -/
def trimSpace (s : List Char) : List Char :=
  ((s.dropWhile goIsSpace).reverse.dropWhile goIsSpace).reverse

/-- Trailing-only strip, as the specification's words describe it
("strip trailing whitespace").  Used to compare with the code's trimSpace. -/
def trimTrailing (s : List Char) : List Char :=
  (s.reverse.dropWhile goIsSpace).reverse

/-- The four accumulators of the scan loop in processFASTQ
(totalReads, totalBases, gcCount, nCount; Go int64, counts are non-negative
and no claim concerns overflow, so Nat). -/
structure ScanCounts where
  totalReads : Nat
  totalBases : Nat
  gcCount : Nat
  nCount : Nat
deriving DecidableEq, Repr

/-- The body of `if lineIdx%4 == 1 { ... }` in processFASTQ: trim the line,
count it as a read, add its length, count G/C and N characters. -/
def bumpLine (acc : ScanCounts) (line : List Char) : ScanCounts :=
  let seq := trimSpace line
  { totalReads := acc.totalReads + 1
    totalBases := acc.totalBases + seq.length
    gcCount := acc.gcCount + seq.countP isGCChar
    nCount := acc.nCount + seq.countP isNChar }

/-- The scan loop of processFASTQ: one pass over the lines with a running
lineIdx, touching only lines at positions congruent to 1 mod 4. -/
def scanFASTQ : Nat → ScanCounts → List (List Char) → ScanCounts
  | _, acc, [] => acc
  | idx, acc, line :: rest =>
      scanFASTQ (idx + 1) (if idx % 4 = 1 then bumpLine acc line else acc) rest

/-- Specification-side selection of the content lines: the line at 0-indexed
position 1 of every 4-line group, including a truncated trailing group when its
position-1 line exists (spec 4.1 edge-case policy). -/
def contentOf : List (List Char) → List (List Char)
  | _ :: c :: _ :: _ :: rest => c :: contentOf rest
  | [_, c, _] => [c]
  | [_, c] => [c]
  | _ => []

/-- Total content length: sum of the trimmed lengths of the content lines. -/
def sumLens (cs : List (List Char)) : Nat :=
  (cs.map fun c => (trimSpace c).length).sum

/-- GC count over the content lines. -/
def sumGC (cs : List (List Char)) : Nat :=
  (cs.map fun c => (trimSpace c).countP isGCChar).sum

/-- N count over the content lines. -/
def sumN (cs : List (List Char)) : Nat :=
  (cs.map fun c => (trimSpace c).countP isNChar).sum

/-- One row of the qc_results table (reads, avg_read_length, gc_content,
n_content; float64 columns modelled as exact rationals; processing_ms is
wall-clock time, outside the embedding). -/
structure ResultRow where
  reads : Nat
  avgReadLength : ℚ
  gcContent : ℚ
  nContent : ℚ
deriving DecidableEq, Repr

/-- The metrics computed by processFASTQ after the scan loop:
avgLen = totalBases/totalReads when totalReads > 0 else 0;
gcFrac, nFrac = gcCount/totalBases, nCount/totalBases when totalBases > 0
else 0. -/
def computeResult (lines : List (List Char)) : ResultRow :=
  let c := scanFASTQ 0 ⟨0, 0, 0, 0⟩ lines
  { reads := c.totalReads
    avgReadLength := if c.totalReads > 0 then (c.totalBases : ℚ) / c.totalReads else 0
    gcContent := if c.totalBases > 0 then (c.gcCount : ℚ) / c.totalBases else 0
    nContent := if c.totalBases > 0 then (c.nCount : ℚ) / c.totalBases else 0 }

/-! ## Job Store and Result Store (Postgres tables jobs and qc_results) -/

/-- Job identifiers (UUID strings in the code). -/
abbrev JobId := String

/-- The status column of the jobs table:
CHECK (status IN ('queued','processing','done','error')).  The spec's Failed
state is the code's 'error'. -/
inductive JobStatus
  | queued
  | processing
  | done
  | error
deriving DecidableEq, Repr

/-- One row of the jobs table (filename, status, error, completed_at;
submitted_at is set once at creation and touched by no claim, so omitted). -/
structure JobRow where
  filename : String
  status : JobStatus
  error : Option String
  completedAt : Option Nat
deriving DecidableEq, Repr

/-- The qc_results table as a list of rows keyed by job_id; the PRIMARY KEY
makes duplicate keys impossible, which the list model states as an explicit
invariant rather than by construction. -/
abbrev ResultTable := List (JobId × ResultRow)

/-- INSERT INTO qc_results ... ON CONFLICT (job_id) DO UPDATE SET ...:
if a row with the key exists it is replaced in place, otherwise a new row is
appended. -/
def upsertRow (tbl : ResultTable) (id : JobId) (v : ResultRow) : ResultTable :=
  if tbl.any fun p => p.1 == id then
    tbl.map fun p => if p.1 == id then (id, v) else p
  else
    tbl ++ [(id, v)]

/-- SELECT ... FROM qc_results WHERE job_id=$1. -/
def findRow (tbl : ResultTable) (id : JobId) : Option ResultRow :=
  (tbl.find? fun p => p.1 == id).map Prod.snd

/-- The database state the worker and the query path read and write. -/
structure DBState where
  jobs : JobId → Option JobRow
  results : ResultTable

/-- UPDATE jobs SET status=$2, error=$3 WHERE id=$1 (setStatus in the worker):
an unconditional update of the row when it exists, a no-op when it does not
(UPDATE matching zero rows is not an error). -/
def setStatus (s : DBState) (id : JobId) (st : JobStatus) (errMsg : Option String) :
    DBState :=
  { s with
    jobs := fun j =>
      if j = id then (s.jobs j).map fun r => { r with status := st, error := errMsg }
      else s.jobs j }

/-- UPDATE jobs SET status='done', completed_at=now() WHERE id=$1 (setDone). -/
def setDone (s : DBState) (id : JobId) (now : Nat) : DBState :=
  { s with
    jobs := fun j =>
      if j = id then
        (s.jobs j).map fun r => { r with status := .done, completedAt := some now }
      else s.jobs j }

/-- The results-api handleGetJob: look the job up (404 when absent, modelled as
none), then attach the qc_results row whenever one exists — the qc row query is
not conditioned on the job's status. -/
def handleGetJob (s : DBState) (id : JobId) : Option (JobRow × Option ResultRow) :=
  (s.jobs id).map fun j => (j, findRow s.results id)

/-! ## Job Coordinator (qc-worker consume loop) -/

/-- The wire shape of a work item on the qc.jobs queue. -/
structure QueueMessage where
  jobId : String
  path : String
  compression : String
deriving DecidableEq, Repr

/-- The primitive observable effects the consume loop performs, in order.
ack is d.Ack(false); nack is d.Nack(false, false), which discards the message
(requeue=false; no dead-letter policy is configured). -/
inductive Effect
  | setStatusE (id : JobId) (st : JobStatus) (errMsg : Option String)
  | setDoneE (id : JobId)
  | upsertE (id : JobId) (row : ResultRow)
  | ack
  | nack
deriving DecidableEq, Repr

/-- Database interpretation of one effect (queue effects leave the DB alone);
now is the timestamp now() returns. -/
def applyEffect (now : Nat) (s : DBState) : Effect → DBState
  | .setStatusE id st e => setStatus s id st e
  | .setDoneE id => setDone s id now
  | .upsertE id r => { s with results := upsertRow s.results id r }
  | .ack => s
  | .nack => s

/-- Database state after a prefix of the loop's effects. -/
def applyTrace (now : Nat) (s : DBState) (tr : List Effect) : DBState :=
  tr.foldl (applyEffect now) s

/-- processFASTQ as seen by the loop: the file stream is either unreadable
(os.Open or scanner error, Except.error with the error text) or a list of
lines; on success the function upserts the computed metrics row and returns
nil.  Store writes themselves are assumed to succeed (their errors are logged
and otherwise ignored by the loop). -/
def processFASTQ (id : JobId) (file : Except String (List (List Char))) :
    List Effect × Option String :=
  match file with
  | .error e => ([], some e)
  | .ok lines => ([.upsertE id (computeResult lines)], none)

/-- One iteration of the consume loop as its ordered effect trace.
body = none models a JSON decode failure (Nack and continue, no DB access);
otherwise: setStatus processing, run processFASTQ (whose upsert happens inside
it), then on error Nack followed by setStatus error, on success Ack followed by
setDone. -/
def consumeTrace (body : Option QueueMessage)
    (file : Except String (List (List Char))) : List Effect :=
  match body with
  | none => [.nack]
  | some msg =>
      let pf := processFASTQ msg.jobId file
      match pf.2 with
      | some e =>
          .setStatusE msg.jobId .processing none ::
            (pf.1 ++ [.nack, .setStatusE msg.jobId .error (some e)])
      | none =>
          .setStatusE msg.jobId .processing none ::
            (pf.1 ++ [.ack, .setDoneE msg.jobId])

/-- Recogniser for the ack effect. -/
def isAck : Effect → Bool
  | .ack => true
  | _ => false

/-- Recogniser for the Done-transition effect. -/
def isSetDone : Effect → Bool
  | .setDoneE _ => true
  | _ => false

/-! ## Ingress API (handleSubmit) -/

/-- Success/failure of each fallible step of handleSubmit, in program order:
ParseMultipartForm, FormFile, MkdirAll, os.Create, ReadFrom, the jobs INSERT,
and the AMQP publish. -/
structure SubmitEnv where
  parseOk : Bool
  fileFieldOk : Bool
  mkdirOk : Bool
  createOk : Bool
  copyOk : Bool
  insertOk : Bool
  publishOk : Bool
deriving DecidableEq, Repr

/-- State visible to the ingress service: stored upload files, the jobs table,
and the qc.jobs queue contents. -/
structure IngressState where
  files : List String
  jobs : JobId → Option JobRow
  queue : List QueueMessage

/-- handleSubmit: save the upload under dstPath, INSERT the job row with
status 'queued', publish one work item, answer the job id.  Each failure
returns an HTTP error (response none) at that point, leaving every effect
already performed in place — there is no compensation/rollback code. -/
def handleSubmit (st : IngressState) (env : SubmitEnv)
    (jobID filename dstPath : String) : IngressState × Option String :=
  if !env.parseOk then (st, none)
  else if !env.fileFieldOk then (st, none)
  else if !env.mkdirOk then (st, none)
  else if !env.createOk then (st, none)
  else
    let st1 : IngressState := { st with files := st.files ++ [dstPath] }
    if !env.copyOk then (st1, none)
    else if !env.insertOk then (st1, none)
    else
      let st2 : IngressState :=
        { st1 with
          jobs := fun j =>
            if j = jobID then some ⟨filename, .queued, none, none⟩ else st1.jobs j }
      if !env.publishOk then (st2, none)
      else
        ({ st2 with queue := st2.queue ++ [⟨jobID, dstPath, "none"⟩] },
         some jobID)

/-! ## Concrete instances used by counterexamples and witnesses -/

/-- The spec section-8 concrete scenario: two complete 4-line records with
content lines ACGTACGTAC and NNNNACGTAC. -/
def demoLines : List (List Char) :=
  ["@r1".toList, "ACGTACGTAC".toList, "+".toList, "IIIIIIIIII".toList,
   "@r2".toList, "NNNNACGTAC".toList, "+".toList, "IIIIIIIIII".toList]

/-- A 4-line record whose content line carries leading whitespace. -/
def leadLines : List (List Char) :=
  [[], [' ', 'G'], [], []]

/-- A concrete work item. -/
def msgJ : QueueMessage := ⟨"j1", "/data/uploads/j1_tiny.fastq", "none"⟩

/-- A freshly created job row. -/
def queuedRow : JobRow := ⟨"tiny.fastq", .queued, none, none⟩

/-- A job row in the terminal success state. -/
def doneRow : JobRow := ⟨"tiny.fastq", .done, none, some 5⟩

/-- A job row in the terminal failure state. -/
def failedRow : JobRow := ⟨"tiny.fastq", .error, some "boom", none⟩

/-- Database holding one queued job. -/
def dbQueued : DBState := ⟨fun j => if j = "j1" then some queuedRow else none, []⟩

/-- Database holding one done job. -/
def dbDone : DBState := ⟨fun j => if j = "j1" then some doneRow else none, []⟩

/-- Database holding one failed job. -/
def dbFailed : DBState := ⟨fun j => if j = "j1" then some failedRow else none, []⟩

/-- Effect trace of one successful loop iteration on msgJ and demoLines. -/
def trSuccess : List Effect := consumeTrace (some msgJ) (.ok demoLines)

/-- Effect trace of one failing loop iteration (unreadable input). -/
def trFail : List Effect := consumeTrace (some msgJ) (.error "open fail")

/-- Empty ingress state. -/
def st0 : IngressState := ⟨[], fun _ => none, []⟩

/-- Submit environment where everything succeeds except the AMQP publish. -/
def envPubFail : SubmitEnv := ⟨true, true, true, true, true, true, false⟩

/-- Two distinct concrete metrics rows. -/
def rowA : ResultRow := ⟨1, 4, 1, 0⟩

/-- Second concrete metrics row, different from rowA. -/
def rowB : ResultRow := ⟨2, 10, 2/5, 1/5⟩

/-! ## Scan-loop characterisation -/

/-- The scan loop, started at a line index divisible by 4, adds to each
accumulator exactly the per-content-line totals of the lines selected by
contentOf. -/
theorem scanFASTQ_spec (n : Nat) :
    ∀ lines : List (List Char), lines.length ≤ n → ∀ idx acc, idx % 4 = 0 →
      scanFASTQ idx acc lines =
        ⟨acc.totalReads + (contentOf lines).length,
         acc.totalBases + sumLens (contentOf lines),
         acc.gcCount + sumGC (contentOf lines),
         acc.nCount + sumN (contentOf lines)⟩ := by
  induction n with
  | zero =>
      intro lines hlen idx acc hidx
      have : lines = [] := List.eq_nil_of_length_eq_zero (Nat.le_zero.mp hlen)
      subst this
      simp [scanFASTQ, contentOf, sumLens, sumGC, sumN]
  | succ n ih =>
      intro lines hlen idx acc hidx
      have h1 : ¬ idx % 4 = 1 := by omega
      have h2 : (idx + 1) % 4 = 1 := by omega
      have h3 : ¬ (idx + 2) % 4 = 1 := by omega
      have h4 : ¬ (idx + 3) % 4 = 1 := by omega
      have h5 : (idx + 4) % 4 = 0 := by omega
      match lines with
      | [] =>
          simp [scanFASTQ, contentOf, sumLens, sumGC, sumN]
      | [a] =>
          simp [scanFASTQ, contentOf, sumLens, sumGC, sumN, h1]
      | [a, c] =>
          simp [scanFASTQ, contentOf, sumLens, sumGC, sumN, h1, h2, bumpLine]
      | [a, c, x] =>
          simp [scanFASTQ, contentOf, sumLens, sumGC, sumN, h1, h2, h3, bumpLine]
      | a :: c :: x :: y :: rest =>
          have hrest : rest.length ≤ n := by
            simp at hlen; omega
          have := ih rest hrest (idx + 4) (bumpLine acc c) h5
          simp only [scanFASTQ, if_neg h1, if_pos h2, if_neg h3, if_neg h4]
          have harr : idx + 1 + 1 + 1 + 1 = idx + 4 := by omega
          rw [harr, this]
          simp [contentOf, sumLens, sumGC, sumN, bumpLine]
          refine ⟨by omega, by omega, by omega, by omega⟩

/-- When the line count is exactly 4k, contentOf selects exactly k lines. -/
theorem contentOf_length (k : Nat) :
    ∀ lines : List (List Char), lines.length = 4 * k →
      (contentOf lines).length = k := by
  induction k with
  | zero =>
      intro lines hlen
      have : lines = [] := List.eq_nil_of_length_eq_zero (by omega)
      subst this
      simp [contentOf]
  | succ k ih =>
      intro lines hlen
      match lines with
      | [] => simp at hlen
      | [a] => simp at hlen; omega
      | [a, c] => simp at hlen; omega
      | [a, c, x] => simp at hlen; omega
      | a :: c :: x :: y :: rest =>
          have hrest : rest.length = 4 * k := by simp at hlen; omega
          simp [contentOf, ih rest hrest]


/-! ## Result-store upsert lemmas -/

/-- A table containing no row for the key is unchanged by the replace map. -/
theorem map_replace_of_any_eq_false (id : JobId) (v : ResultRow) :
    ∀ tbl : ResultTable, (tbl.any fun p => p.1 == id) = false →
      (tbl.map fun p => if p.1 == id then (id, v) else p) = tbl := by
  intro tbl
  induction tbl with
  | nil => intro _; rfl
  | cons q t ih =>
      intro h
      rw [List.any_cons, Bool.or_eq_false_iff] at h
      simp only [List.map_cons, ih h.2, h.1]
      simp

/-- A table containing no row for the key yields no lookup hit. -/
theorem find?_none_of_any_eq_false (id : JobId) :
    ∀ tbl : ResultTable, (tbl.any fun p => p.1 == id) = false →
      (tbl.find? fun p => p.1 == id) = none := by
  intro tbl
  induction tbl with
  | nil => intro _; rfl
  | cons q t ih =>
      intro h
      rw [List.any_cons, Bool.or_eq_false_iff] at h
      rw [List.find?_cons_of_neg _ (by simp [h.1]), ih h.2]

/-- Lookup distributes over append when the left part has no hit. -/
theorem find?_append_of_none (p : JobId × ResultRow → Bool) :
    ∀ l1 l2 : ResultTable, l1.find? p = none →
      (l1 ++ l2).find? p = l2.find? p := by
  intro l1
  induction l1 with
  | nil => intro l2 _; rfl
  | cons q t ih =>
      intro l2 h
      by_cases hq : p q = true
      · rw [List.find?_cons_of_pos _ hq] at h
        exact absurd h (by simp)
      · rw [List.find?_cons_of_neg _ hq] at h
        rw [List.cons_append, List.find?_cons_of_neg _ hq, ih l2 h]

/-- Looking the key up after the replace map yields the replacement. -/
theorem find?_map_replace (id : JobId) (v : ResultRow) :
    ∀ tbl : ResultTable, (tbl.any fun p => p.1 == id) = true →
      ((tbl.map fun p => if p.1 == id then (id, v) else p).find?
        fun p => p.1 == id) = some (id, v) := by
  intro tbl
  induction tbl with
  | nil => intro h; simp at h
  | cons q t ih =>
      intro h
      by_cases hq : (q.1 == id) = true
      · simp only [List.map_cons]
        rw [List.find?_cons_of_pos _ (by simp [hq])]
        simp [hq]
      · rw [Bool.not_eq_true] at hq
        have ht : (t.any fun p => p.1 == id) = true := by
          rw [List.any_cons, hq] at h
          simpa using h
        simp only [List.map_cons]
        rw [List.find?_cons_of_neg _ (by simp [hq]), ih ht]

/-- After an upsert, the key maps to the new value. -/
theorem findRow_upsertRow (tbl : ResultTable) (id : JobId) (v : ResultRow) :
    findRow (upsertRow tbl id v) id = some v := by
  unfold findRow upsertRow
  by_cases ha : (tbl.any fun p => p.1 == id) = true
  · rw [if_pos ha, find?_map_replace id v tbl ha]
    rfl
  · rw [if_neg ha]
    rw [Bool.not_eq_true] at ha
    rw [find?_append_of_none _ tbl [(id, v)] (find?_none_of_any_eq_false id tbl ha)]
    simp

/-- The replace map preserves key multiplicity. -/
theorem countP_map_replace (id : JobId) (v : ResultRow) :
    ∀ tbl : ResultTable,
      ((tbl.map fun p => if p.1 == id then (id, v) else p).countP
        fun p => p.1 == id) = tbl.countP fun p => p.1 == id := by
  intro tbl
  induction tbl with
  | nil => rfl
  | cons q t ih =>
      simp only [List.map_cons, List.countP_cons, ih]
      congr 1
      by_cases hq : (q.1 == id) = true
      · simp [hq]
      · rw [Bool.not_eq_true] at hq
        simp [hq]

/-- Presence of the key in the table gives positive key multiplicity. -/
theorem countP_pos_of_any (id : JobId) (tbl : ResultTable)
    (h : (tbl.any fun p => p.1 == id) = true) :
    0 < tbl.countP fun p => p.1 == id := by
  rw [List.any_eq_true] at h
  obtain ⟨p, hp, hkey⟩ := h
  exact List.countP_pos_iff.mpr ⟨p, hp, hkey⟩

/-- Absence of the key in the table gives zero key multiplicity. -/
theorem countP_zero_of_any_eq_false (id : JobId) (tbl : ResultTable)
    (h : (tbl.any fun p => p.1 == id) = false) :
    (tbl.countP fun p => p.1 == id) = 0 := by
  rw [List.countP_eq_zero]
  intro p hp
  rw [List.any_eq_false] at h
  exact h p hp

/-- An upsert against a table respecting the primary-key invariant leaves
exactly one row for the key. -/
theorem countP_upsertRow (tbl : ResultTable) (id : JobId) (v : ResultRow)
    (h : (tbl.countP fun p => p.1 == id) ≤ 1) :
    ((upsertRow tbl id v).countP fun p => p.1 == id) = 1 := by
  unfold upsertRow
  by_cases ha : (tbl.any fun p => p.1 == id) = true
  · rw [if_pos ha, countP_map_replace]
    have := countP_pos_of_any id tbl ha
    omega
  · rw [if_neg ha]
    rw [Bool.not_eq_true] at ha
    rw [List.countP_append, countP_zero_of_any_eq_false id tbl ha]
    simp [List.countP_cons]

/-- Upserting twice for the same key collapses to the second upsert. -/
theorem upsertRow_upsertRow (tbl : ResultTable) (id : JobId) (v1 v2 : ResultRow) :
    upsertRow (upsertRow tbl id v1) id v2 = upsertRow tbl id v2 := by
  by_cases ha : (tbl.any fun p => p.1 == id) = true
  · have h1 : upsertRow tbl id v1 =
        tbl.map fun p => if p.1 == id then (id, v1) else p := by
      simp [upsertRow, ha]
    have ha2 : ((tbl.map fun p => if p.1 == id then (id, v1) else p).any
        fun p => p.1 == id) = true := by
      rw [List.any_eq_true] at ha ⊢
      obtain ⟨p, hp, hkey⟩ := ha
      refine ⟨if p.1 == id then (id, v1) else p, List.mem_map_of_mem _ hp, ?_⟩
      simp [hkey]
    rw [h1, upsertRow, if_pos ha2, List.map_map, upsertRow, if_pos ha]
    apply List.map_congr_left
    intro p _
    by_cases hp : (p.1 == id) = true
    · simp only [Function.comp_apply, hp, if_true]
      simp
    · rw [Bool.not_eq_true] at hp
      simp only [Function.comp_apply, hp, if_false]
      simp [hp]
  · have hne := ha
    rw [Bool.not_eq_true] at ha
    have h1 : upsertRow tbl id v1 = tbl ++ [(id, v1)] := by
      simp [upsertRow, ha]
    have ha2 : ((tbl ++ [(id, v1)]).any fun p => p.1 == id) = true := by
      simp
    rw [h1, upsertRow, if_pos ha2, List.map_append,
      map_replace_of_any_eq_false id v2 tbl ha, upsertRow, if_neg hne]
    simp

/-! ## Claims -/

/-- C1: for every input whose line count is a multiple of 4, the Analyzer
computes record_count = number of complete 4-line groups, avg_record_length =
total content length / record_count (0 when record_count = 0), gc_fraction =
GC count / total content length and n_fraction = N count / total content
length (both 0 when the total content length is 0). -/
theorem analyzer_metrics_valid_grouped (lines : List (List Char)) (k : Nat)
    (h : lines.length = 4 * k) :
    (computeResult lines).reads = k ∧
    (computeResult lines).avgReadLength =
      (if k = 0 then 0 else (sumLens (contentOf lines) : ℚ) / (k : ℚ)) ∧
    (computeResult lines).gcContent =
      (if sumLens (contentOf lines) = 0 then 0
       else (sumGC (contentOf lines) : ℚ) / (sumLens (contentOf lines) : ℚ)) ∧
    (computeResult lines).nContent =
      (if sumLens (contentOf lines) = 0 then 0
       else (sumN (contentOf lines) : ℚ) / (sumLens (contentOf lines) : ℚ)) := by
  have hs := scanFASTQ_spec lines.length lines le_rfl 0 ⟨0, 0, 0, 0⟩ (by decide)
  have hk := contentOf_length k lines h
  simp only [computeResult, hs, hk, Nat.zero_add]
  refine ⟨trivial, ?_, ?_, ?_⟩
  · rcases Nat.eq_zero_or_pos k with h0 | h0
    · simp [h0]
    · rw [if_pos h0, if_neg (by omega)]
  · rcases Nat.eq_zero_or_pos (sumLens (contentOf lines)) with h0 | h0
    · simp [h0]
    · rw [if_pos h0, if_neg (by omega)]
  · rcases Nat.eq_zero_or_pos (sumLens (contentOf lines)) with h0 | h0
    · simp [h0]
    · rw [if_pos h0, if_neg (by omega)]

/-- C1 witness: the spec section-8 two-record scenario instantiates the
theorem. -/
theorem analyzer_metrics_valid_grouped_witness :
    demoLines.length = 4 * 2 ∧
    ((computeResult demoLines).reads = 2 ∧
     (computeResult demoLines).avgReadLength =
       (if (2 : Nat) = 0 then 0
        else (sumLens (contentOf demoLines) : ℚ) / ((2 : Nat) : ℚ)) ∧
     (computeResult demoLines).gcContent =
       (if sumLens (contentOf demoLines) = 0 then 0
        else (sumGC (contentOf demoLines) : ℚ) / (sumLens (contentOf demoLines) : ℚ)) ∧
     (computeResult demoLines).nContent =
       (if sumLens (contentOf demoLines) = 0 then 0
        else (sumN (contentOf demoLines) : ℚ) / (sumLens (contentOf demoLines) : ℚ))) :=
  ⟨by decide, analyzer_metrics_valid_grouped demoLines 2 (by decide)⟩

/-- C2 counterexample: setStatus applies a transition to a job already in the
terminal state Done, moving it back to Processing — the stored state of a
terminal job is overwritten, contradicting the claim that such transitions are
rejected or ignored. -/
theorem setStatus_overwrites_done_job :
    dbDone.jobs "j1" = some doneRow ∧
    doneRow.status = JobStatus.done ∧
    (setStatus dbDone "j1" .processing none).jobs "j1" =
      some ⟨"tiny.fastq", .processing, none, some 5⟩ := by
  decide

/-- C2 amended: setStatus performs no legality check at all: whenever the row
exists, it overwrites status and failure_reason with the requested values,
regardless of the current (possibly terminal) state; completed_at alone is left
unchanged.  In particular a redelivered work item moves a Done job back to
Processing. -/
theorem setStatus_applies_unconditionally (s : DBState) (id : JobId)
    (st : JobStatus) (e : Option String) (row : JobRow)
    (h : s.jobs id = some row) :
    (setStatus s id st e).jobs id = some { row with status := st, error := e } := by
  simp [setStatus, h]

/-- C2 witness: the unconditional update applied to a Done job. -/
theorem setStatus_applies_unconditionally_witness :
    dbDone.jobs "j1" = some doneRow ∧
    (setStatus dbDone "j1" .processing none).jobs "j1" =
      some { doneRow with status := .processing, error := none } :=
  ⟨by decide, setStatus_applies_unconditionally dbDone "j1" .processing none doneRow
    (by decide)⟩

/-- C3 counterexample: after the first two effects of a successful iteration
(setStatus processing and the upsert inside processFASTQ) the qc_results row
already exists while the job's state is Processing, and handleGetJob returns
the result next to the non-Done job — refuting both the result-iff-Done
invariant and the result-only-when-Done query behaviour. -/
theorem result_row_visible_while_processing :
    ((applyTrace 7 dbQueued (trSuccess.take 2)).jobs "j1").map JobRow.status =
      some JobStatus.processing ∧
    (findRow (applyTrace 7 dbQueued (trSuccess.take 2)).results "j1").isSome = true ∧
    (handleGetJob (applyTrace 7 dbQueued (trSuccess.take 2)) "j1").map
      (fun p => (p.1.status, p.2.isSome)) = some (JobStatus.processing, true) := by
  decide

/-- C3 amended: the result row exists from the upsert onward, which precedes
the Done transition: at the observable point after the upsert the job is still
Processing with the result row present, and handleGetJob returns whatever row
exists regardless of the job state; once the iteration completes, the job is
Done and the query returns job and result together. -/
theorem result_row_lifecycle_on_success (db : DBState) (msg : QueueMessage)
    (lines : List (List Char)) (now : Nat) (row : JobRow)
    (h : db.jobs msg.jobId = some row) :
    (applyTrace now db ((consumeTrace (some msg) (.ok lines)).take 2)).jobs
        msg.jobId = some { row with status := .processing, error := none } ∧
    findRow (applyTrace now db ((consumeTrace (some msg) (.ok lines)).take 2)).results
        msg.jobId = some (computeResult lines) ∧
    handleGetJob (applyTrace now db ((consumeTrace (some msg) (.ok lines)).take 2))
        msg.jobId =
      some ({ row with status := .processing, error := none },
        some (computeResult lines)) ∧
    (applyTrace now db (consumeTrace (some msg) (.ok lines))).jobs msg.jobId =
      some { row with status := .done, error := none, completedAt := some now } ∧
    handleGetJob (applyTrace now db (consumeTrace (some msg) (.ok lines))) msg.jobId =
      some ({ row with status := .done, error := none, completedAt := some now },
        some (computeResult lines)) := by
  simp [consumeTrace, processFASTQ, applyTrace, applyEffect, setStatus, setDone,
    handleGetJob, h, findRow_upsertRow]

/-- C3 witness: the lifecycle theorem at the concrete queued job and the
section-8 input. -/
theorem result_row_lifecycle_on_success_witness :
    dbQueued.jobs msgJ.jobId = some queuedRow ∧
    ((applyTrace 7 dbQueued ((consumeTrace (some msgJ) (.ok demoLines)).take 2)).jobs
        msgJ.jobId = some { queuedRow with status := .processing, error := none } ∧
     findRow (applyTrace 7 dbQueued
        ((consumeTrace (some msgJ) (.ok demoLines)).take 2)).results msgJ.jobId =
       some (computeResult demoLines) ∧
     handleGetJob (applyTrace 7 dbQueued
        ((consumeTrace (some msgJ) (.ok demoLines)).take 2)) msgJ.jobId =
       some ({ queuedRow with status := .processing, error := none },
         some (computeResult demoLines)) ∧
     (applyTrace 7 dbQueued (consumeTrace (some msgJ) (.ok demoLines))).jobs
        msgJ.jobId =
       some { queuedRow with status := .done, error := none, completedAt := some 7 } ∧
     handleGetJob (applyTrace 7 dbQueued (consumeTrace (some msgJ) (.ok demoLines)))
        msgJ.jobId =
       some ({ queuedRow with status := .done, error := none, completedAt := some 7 },
         some (computeResult demoLines))) :=
  ⟨by decide, result_row_lifecycle_on_success dbQueued msgJ demoLines 7 queuedRow
    (by decide)⟩

/-- C4 counterexample: in the successful trace the acknowledgment sits at
index 2 and the Done transition at index 3 — the work item is acknowledged
before the Done transition is written, refuting the claimed
upsert-then-Done-then-ack order. -/
theorem ack_precedes_done_transition :
    trSuccess.findIdx isAck = 2 ∧ trSuccess.findIdx isSetDone = 3 := by
  decide

/-- C4 amended: on success the coordinator performs the upsert, then the
acknowledgment, and only then the Done transition; the item is never
acknowledged before the result upsert, but it is acknowledged before the Done
write. -/
theorem success_trace_order (msg : QueueMessage) (lines : List (List Char)) :
    consumeTrace (some msg) (.ok lines) =
      [.setStatusE msg.jobId .processing none,
       .upsertE msg.jobId (computeResult lines),
       .ack, .setDoneE msg.jobId] := by
  rfl

/-- C5 counterexample: a failing iteration leaves the job in the terminal
state error (the spec's Failed) with completed_at still null — refuting
"completed_at is null iff state is Queued or Processing"; the failure branch
writes status and error through setStatus, which never touches completed_at. -/
theorem failed_job_completed_at_null :
    (applyTrace 7 dbQueued trFail).jobs "j1" =
      some ⟨"tiny.fastq", JobStatus.error, some "open fail", none⟩ := by
  decide

/-- C5 amended: completed_at is written only by the Done transition (setDone,
on every such call, not exactly once); a transition to error/Failed leaves
completed_at unchanged, so a job that fails without ever having been Done
keeps completed_at null. -/
theorem completed_at_set_only_on_done (db : DBState) (msg : QueueMessage)
    (e : String) (lines : List (List Char)) (now : Nat) (row : JobRow)
    (h : db.jobs msg.jobId = some row) :
    (applyTrace now db (consumeTrace (some msg) (.error e))).jobs msg.jobId =
      some { row with status := .error, error := some e } ∧
    (applyTrace now db (consumeTrace (some msg) (.ok lines))).jobs msg.jobId =
      some { row with status := .done, error := none, completedAt := some now } := by
  simp [consumeTrace, processFASTQ, applyTrace, applyEffect, setStatus, setDone, h]

/-- C5 witness: the two outcomes at the concrete queued job. -/
theorem completed_at_set_only_on_done_witness :
    dbQueued.jobs msgJ.jobId = some queuedRow ∧
    ((applyTrace 7 dbQueued (consumeTrace (some msgJ) (.error "open fail"))).jobs
        msgJ.jobId =
      some { queuedRow with status := .error, error := some "open fail" } ∧
     (applyTrace 7 dbQueued (consumeTrace (some msgJ) (.ok demoLines))).jobs
        msgJ.jobId =
      some { queuedRow with status := .done, error := none, completedAt := some 7 }) :=
  ⟨by decide, completed_at_set_only_on_done dbQueued msgJ "open fail" demoLines 7
    queuedRow (by decide)⟩

/-- C6: the Result Store upsert is an idempotent replace: upserting v1 and
then v2 for the same job_id equals upserting v2 alone, and (under the
primary-key invariant of at most one row per key) exactly one row for the key
remains, holding v2. -/
theorem upsert_idempotent_replace (tbl : ResultTable) (id : JobId)
    (v1 v2 : ResultRow) (h : (tbl.countP fun p => p.1 == id) ≤ 1) :
    upsertRow (upsertRow tbl id v1) id v2 = upsertRow tbl id v2 ∧
    ((upsertRow (upsertRow tbl id v1) id v2).countP fun p => p.1 == id) = 1 ∧
    findRow (upsertRow (upsertRow tbl id v1) id v2) id = some v2 := by
  refine ⟨upsertRow_upsertRow tbl id v1 v2, ?_, ?_⟩
  · rw [upsertRow_upsertRow tbl id v1 v2]
    exact countP_upsertRow tbl id v2 h
  · rw [upsertRow_upsertRow tbl id v1 v2]
    exact findRow_upsertRow tbl id v2

/-- C6 witness: two upserts for the same key on the empty table. -/
theorem upsert_idempotent_replace_witness :
    (([] : ResultTable).countP fun p => p.1 == "j1") ≤ 1 ∧
    (upsertRow (upsertRow ([] : ResultTable) "j1" rowA) "j1" rowB =
        upsertRow ([] : ResultTable) "j1" rowB ∧
     ((upsertRow (upsertRow ([] : ResultTable) "j1" rowA) "j1" rowB).countP
        fun p => p.1 == "j1") = 1 ∧
     findRow (upsertRow (upsertRow ([] : ResultTable) "j1" rowA) "j1" rowB) "j1" =
       some rowB) :=
  ⟨by decide, upsert_idempotent_replace ([] : ResultTable) "j1" rowA rowB (by decide)⟩

/-- C7 counterexample: when everything up to and including the jobs INSERT
succeeds but the queue publish fails, handleSubmit answers an error yet leaves
the Queued job row (and the saved file) behind with no work item — the
submission is not atomic as a single externally-observable unit. -/
theorem publish_failure_leaves_queued_row :
    (handleSubmit st0 envPubFail "j1" "tiny.fastq" "/data/uploads/j1_tiny.fastq").2 =
      none ∧
    (handleSubmit st0 envPubFail "j1" "tiny.fastq"
        "/data/uploads/j1_tiny.fastq").1.jobs "j1" =
      some ⟨"tiny.fastq", .queued, none, none⟩ ∧
    (handleSubmit st0 envPubFail "j1" "tiny.fastq"
        "/data/uploads/j1_tiny.fastq").1.queue = [] := by
  decide

/-- C7 amended: handleSubmit saves the file, inserts the Queued job row, then
publishes exactly one work item referencing the stored path; the steps are not
atomic: a failed INSERT leaves the saved file behind (but no job row and no
work item), and a failed publish leaves both the saved file and the Queued job
row behind with no work item. -/
theorem submit_effect_order_not_atomic (st : IngressState)
    (jobID filename dstPath : String) :
    ((handleSubmit st ⟨true, true, true, true, true, true, true⟩
        jobID filename dstPath).1.files = st.files ++ [dstPath] ∧
     (handleSubmit st ⟨true, true, true, true, true, true, true⟩
        jobID filename dstPath).1.jobs jobID = some ⟨filename, .queued, none, none⟩ ∧
     (handleSubmit st ⟨true, true, true, true, true, true, true⟩
        jobID filename dstPath).1.queue = st.queue ++ [⟨jobID, dstPath, "none"⟩] ∧
     (handleSubmit st ⟨true, true, true, true, true, true, true⟩
        jobID filename dstPath).2 = some jobID) ∧
    ((handleSubmit st ⟨true, true, true, true, true, false, true⟩
        jobID filename dstPath).1.files = st.files ++ [dstPath] ∧
     (handleSubmit st ⟨true, true, true, true, true, false, true⟩
        jobID filename dstPath).1.jobs = st.jobs ∧
     (handleSubmit st ⟨true, true, true, true, true, false, true⟩
        jobID filename dstPath).1.queue = st.queue ∧
     (handleSubmit st ⟨true, true, true, true, true, false, true⟩
        jobID filename dstPath).2 = none) ∧
    ((handleSubmit st ⟨true, true, true, true, true, true, false⟩
        jobID filename dstPath).1.files = st.files ++ [dstPath] ∧
     (handleSubmit st ⟨true, true, true, true, true, true, false⟩
        jobID filename dstPath).1.jobs jobID = some ⟨filename, .queued, none, none⟩ ∧
     (handleSubmit st ⟨true, true, true, true, true, true, false⟩
        jobID filename dstPath).1.queue = st.queue ∧
     (handleSubmit st ⟨true, true, true, true, true, true, false⟩
        jobID filename dstPath).2 = none) := by
  refine ⟨⟨?_, ?_, ?_, ?_⟩, ⟨?_, ?_, ?_, ?_⟩, ⟨?_, ?_, ?_, ?_⟩⟩ <;>
    simp [handleSubmit]

/-- C8: when the Analyzer invocation fails, the job ends in the terminal
failure state with failure_reason equal to the error text, the result table is
left untouched (no Metrics Result row is created), and the trace discards the
work item with a negative acknowledgment and contains no ack (no automatic
retry). -/
theorem failure_path_failed_no_result_discard (db : DBState) (msg : QueueMessage)
    (e : String) (now : Nat) (row : JobRow)
    (h : db.jobs msg.jobId = some row) :
    (applyTrace now db (consumeTrace (some msg) (.error e))).jobs msg.jobId =
      some { row with status := .error, error := some e } ∧
    (applyTrace now db (consumeTrace (some msg) (.error e))).results = db.results ∧
    Effect.nack ∈ consumeTrace (some msg) (.error e) ∧
    Effect.ack ∉ consumeTrace (some msg) (.error e) := by
  refine ⟨?_, ?_, ?_, ?_⟩ <;>
    simp [consumeTrace, processFASTQ, applyTrace, applyEffect, setStatus, h]

/-- C8 witness: the failure path at the concrete queued job. -/
theorem failure_path_failed_no_result_discard_witness :
    dbQueued.jobs msgJ.jobId = some queuedRow ∧
    ((applyTrace 7 dbQueued (consumeTrace (some msgJ) (.error "open fail"))).jobs
        msgJ.jobId =
      some { queuedRow with status := .error, error := some "open fail" } ∧
     (applyTrace 7 dbQueued (consumeTrace (some msgJ) (.error "open fail"))).results =
       dbQueued.results ∧
     Effect.nack ∈ consumeTrace (some msgJ) (.error "open fail") ∧
     Effect.ack ∉ consumeTrace (some msgJ) (.error "open fail")) :=
  ⟨by decide, failure_path_failed_no_result_discard dbQueued msgJ "open fail" 7
    queuedRow (by decide)⟩

/-- C9 counterexample: on a content line with leading whitespace the code adds
the fully trimmed length (1 for the line consisting of a space and a G), not
the trailing-only-stripped length (2) — strings.TrimSpace strips leading
whitespace too, refuting "strips trailing whitespace and nothing else". -/
theorem trim_strips_leading_too :
    (scanFASTQ 0 ⟨0, 0, 0, 0⟩ leadLines).totalBases = 1 ∧
    (trimTrailing [' ', 'G']).length = 2 ∧
    (scanFASTQ 0 ⟨0, 0, 0, 0⟩ leadLines).totalBases ≠
      (trimTrailing [' ', 'G']).length := by
  decide

/-- C9 amended: for every content line the Analyzer strips leading and
trailing whitespace (strings.TrimSpace), classifies each remaining character
case-insensitively — G/C into the GC count, N into the N count, all others
neutral — and adds the stripped line's length to the total content length. -/
theorem content_line_classification (lines : List (List Char)) :
    (scanFASTQ 0 ⟨0, 0, 0, 0⟩ lines).totalBases = sumLens (contentOf lines) ∧
    (scanFASTQ 0 ⟨0, 0, 0, 0⟩ lines).gcCount = sumGC (contentOf lines) ∧
    (scanFASTQ 0 ⟨0, 0, 0, 0⟩ lines).nCount = sumN (contentOf lines) := by
  have hs := scanFASTQ_spec lines.length lines le_rfl 0 ⟨0, 0, 0, 0⟩ (by decide)
  rw [hs]
  exact ⟨by simp, by simp, by simp⟩

/-- C10: the first effect of every decoded iteration is the single atomic
update setting status to processing and error to null; applied to any stored
job row — in particular one in the Failed state — it erases the stored
failure_reason as soon as processing restarts. -/
theorem processing_transition_clears_error (db : DBState) (msg : QueueMessage)
    (file : Except String (List (List Char))) (now : Nat) (row : JobRow)
    (h : db.jobs msg.jobId = some row) :
    (consumeTrace (some msg) file).head? =
      some (.setStatusE msg.jobId .processing none) ∧
    (applyTrace now db ((consumeTrace (some msg) file).take 1)).jobs msg.jobId =
      some { row with status := .processing, error := none } := by
  cases file with
  | error e =>
      refine ⟨rfl, ?_⟩
      simp [consumeTrace, processFASTQ, applyTrace, applyEffect, setStatus, h]
  | ok lines =>
      refine ⟨rfl, ?_⟩
      simp [consumeTrace, processFASTQ, applyTrace, applyEffect, setStatus, h]

/-- C10 witness: redelivery over a previously failed job erases its stored
failure reason when processing restarts. -/
theorem processing_transition_clears_error_witness :
    dbFailed.jobs msgJ.jobId = some failedRow ∧
    ((consumeTrace (some msgJ) (.ok demoLines)).head? =
        some (.setStatusE msgJ.jobId .processing none) ∧
     (applyTrace 7 dbFailed ((consumeTrace (some msgJ) (.ok demoLines)).take 1)).jobs
        msgJ.jobId = some { failedRow with status := .processing, error := none }) :=
  ⟨by decide, processing_transition_clears_error dbFailed msgJ (.ok demoLines) 7
    failedRow (by decide)⟩

end FastqQC
